import Mathlib

/-!
Verification development for `aioquant/platform/binance.py`.

This file gives a shallow embedding of the parts of the module that the
statements below are about: the `BinanceRestAPI` request signer/composer,
and the `BinanceTrade` order reconciler (`__init__`, `connected_callback`,
`create_order`, `revoke_order`, `process`).

Modelling conventions:
- Python dicts (`self._orders`, `kwargs`) are association lists with unique
  keys; `dictSet` overwrites in place (preserving position) like a Python
  dict assignment, `dictPop` removes the entry.
- Decimal strings that the source immediately converts with `float(...)`
  (`origQty`, `executedQty`, `q`, `z`) are carried as exact rationals: every
  statement below only compares the results of the very same arithmetic on
  both sides, so the float representation is irrelevant.
- External collaborators (the HTTP transport, the websocket, the task
  scheduler) are out of scope per the spec; REST responses are supplied as
  explicit `Except`/oracle arguments and dispatched callbacks are recorded
  in an effect trace, in program order.  Mutations of the order dict are
  also recorded in the trace (`setOrder`/`popOrder`), so the ordering of a
  dict mutation relative to a callback dispatch is observable; the dict
  after a call is the fold of the trace over the dict before it.
- `hmac.new(key, msg, sha256).hexdigest()` is embedded symbolically as the
  constructor `Digest.hmacSha256 key msg`: the claims are about which key
  and which message enter the HMAC, not about the SHA256 compression
  function.
-/

namespace AioquantBinance

/-! ### Python dict model -/

/-- `d.get(k)`: first binding of `k`, if any. -/
def pyGet {α : Type} (d : List (String × α)) (k : String) : Option α :=
  match d with
  | [] => none
  | kv :: rest => if kv.1 = k then some kv.2 else pyGet rest k

/-- `d[k] = v`: overwrite in place when the key exists (a Python dict keeps
the key's position), append otherwise. -/
def dictSet {α : Type} (d : List (String × α)) (k : String) (v : α) :
    List (String × α) :=
  match d with
  | [] => [(k, v)]
  | kv :: rest => if kv.1 = k then (k, v) :: rest else kv :: dictSet rest k v

/-- `d.pop(k)`: drop the first binding of `k`. -/
def dictPop {α : Type} (d : List (String × α)) (k : String) :
    List (String × α) :=
  match d with
  | [] => []
  | kv :: rest => if kv.1 = k then rest else kv :: dictPop rest k

/-- `d[k]`: bracket access, `KeyError` when missing. -/
def pyItem (d : List (String × String)) (k : String) : Except String String :=
  match pyGet d k with
  | some v => Except.ok v
  | none => Except.error ("KeyError: " ++ k)

/-- Python truthiness test `not kwargs.get(k)` for string-valued entries:
missing keys and empty strings are falsy. -/
def pyFalsy (v : Option String) : Bool :=
  match v with
  | none => true
  | some s => s = ""

/-! ### Order model

`Order` and the `ORDER_*` constants live in `aioquant/order.py`, outside the
embedded module; only the fields and constants that `binance.py` reads or
writes are modelled.  The action/type/status constants are embedded as
closed enumerations (only their identities are used). -/

/-- Normalized order status constants (`ORDER_STATUS_*`). -/
inductive OrderStatus where
  | submitted
  | partFilled
  | filled
  | canceled
  | failed
  deriving DecidableEq, Repr

/-- `ORDER_ACTION_BUY` / `ORDER_ACTION_SELL`. -/
inductive OrderAction where
  | buy
  | sell
  deriving DecidableEq, Repr

/-- `ORDER_TYPE_LIMIT` / `ORDER_TYPE_MARKET`. -/
inductive OrderType where
  | limit
  | market
  deriving DecidableEq, Repr

/-- The order entity, restricted to the fields `binance.py` populates. -/
structure Order where
  platform : String
  account : String
  strategy : String
  order_id : String
  client_order_id : String
  action : OrderAction
  order_type : OrderType
  symbol : String
  price : String
  quantity : Rat
  remain : Rat
  status : OrderStatus
  ctime : Nat
  utime : Nat
  deriving DecidableEq, Repr

/-- The live order mapping `self._orders` (a Python dict keyed by order id). -/
abbrev OrderDict := List (String × Order)

/-- `[ORDER_STATUS_FAILED, ORDER_STATUS_CANCELED, ORDER_STATUS_FILLED]`,
the terminal-status list from line 1051 of the source. -/
def terminalStatuses : List OrderStatus :=
  [OrderStatus.failed, OrderStatus.canceled, OrderStatus.filled]

/-! ### Effects

Observable steps of a `BinanceTrade` method, in program order: callback
dispatches (`SingleTask.run(...)`), outbound cancel REST calls, and
mutations of the live order dict. -/

/-- One observable step of a `BinanceTrade` method. -/
inductive Effect where
  | setOrder (order_id : String) (order : Order)
  | popOrder (order_id : String)
  | orderUpdate (order : Order)
  | errorCallback (err : String)
  | initCallback (success : Bool)
  | restCancel (symbol : String) (order_id : String)
  deriving DecidableEq, Repr

/-- Apply one effect to the order dict (callback dispatches do not touch it). -/
def applyEffect (d : OrderDict) : Effect → OrderDict
  | Effect.setOrder k o => dictSet d k o
  | Effect.popOrder k => dictPop d k
  | _ => d

/-- Fold a trace of effects over the order dict. -/
def applyTrace (d : OrderDict) (fx : List Effect) : OrderDict :=
  fx.foldl applyEffect d

/-! ### `BinanceRestAPI`: request signing and composition (lines 33-382) -/

/-- REST API client state, as set by `BinanceRestAPI.__init__`. -/
structure BinanceRestAPI where
  host : String
  access_key : String
  secret_key : String
  deriving DecidableEq, Repr

/-- `BinanceRestAPI.__init__(self, access_key, secret_key, host="https://api.binance.com")`.
The parameter order is the Python signature's positional order; the `host`
default is written out at the one internal call site. -/
def mkBinanceRestAPI (access_key secret_key host : String) : BinanceRestAPI :=
  { host := host, access_key := access_key, secret_key := secret_key }

/-- `hmac.new(secret.encode(), query.encode(), hashlib.sha256).hexdigest()`,
kept symbolic: the value records exactly which key and message were hashed. -/
inductive Digest where
  | hmacSha256 (key : String) (message : String)
  deriving DecidableEq, Repr

/-- `urljoin(host, uri)`: every call site joins an absolute-path uri onto a
bare scheme-and-authority host, for which `urljoin` is concatenation. -/
def urljoin (host uri : String) : String := host ++ uri

/-- `"&".join(["=".join([str(k), str(v)]) for k, v in data.items()])` -/
def buildQuery (data : List (String × String)) : String :=
  String.intercalate "&" (data.map (fun kv => kv.1 ++ "=" ++ kv.2))

/-- The outbound HTTP request handed to `AsyncHttpRequests.fetch`.  The full
URL is `url ++ "?" ++ query` with, when `signature` is present, the suffix
`"&signature=" ++ hexdigest`; the digest being symbolic, the query string and
the signature component are kept as separate fields. -/
structure HttpRequest where
  method : String
  url : String
  query : String
  signature : Option Digest
  apiKeyHeader : String
  deriving DecidableEq, Repr

/-- `BinanceRestAPI.request` (lines 344-382).  `params` and `body` are merged
into one dict in insertion order (`data.update(params); data.update(body)`;
call sites never pass overlapping keys); when `auth` is set and the query is
nonempty, a signature over the exact query string, keyed by
`self._secret_key`, is appended; the `X-MBX-APIKEY` header always carries
`self._access_key`. -/
def BinanceRestAPI.request (api : BinanceRestAPI) (method uri : String)
    (params body : List (String × String)) (auth : Bool) : HttpRequest :=
  let url := urljoin api.host uri
  let data := params ++ body
  let query := buildQuery data
  let signature :=
    if auth ∧ query ≠ "" then some (Digest.hmacSha256 api.secret_key query)
    else none
  { method := method, url := url, query := query, signature := signature,
    apiKeyHeader := api.access_key }

/-- `BinanceRestAPI.get_user_account` (lines 48-61); `ts` stands for the
`tools.get_cur_timestamp_ms()` reading. -/
def BinanceRestAPI.get_user_account (api : BinanceRestAPI) (ts : String) :
    HttpRequest :=
  api.request "GET" "/api/v3/account" [("timestamp", ts)] [] true

/-! ### `BinanceTrade.__init__` (lines 777-828) -/

/-- The configuration a `BinanceTrade` instance carries after `__init__`
succeeds (`_listen_key`/`_assets`, which no statement below touches, are
omitted; `_orders` starts as the empty dict and is threaded explicitly). -/
structure TradeConfig where
  account : String
  strategy : String
  platform : String
  symbol : String
  host : String
  wss : String
  access_key : String
  secret_key : String
  raw_symbol : String
  rest_api : BinanceRestAPI
  deriving DecidableEq, Repr

/-- `self._symbol.replace("/", "")`: Python `str.replace` with a one-char
pattern and empty replacement removes every occurrence of that character. -/
def removeSlashes (s : String) : String :=
  String.mk (s.data.filter (fun ch => ch ≠ '/'))

/-- Lines 779-793: the validation chain.  Each failed check overwrites `e`,
so only the last failure is reported; none of them aborts construction. -/
def initValidationError (kwargs : List (String × String)) : Option String :=
  let e : Option String := none
  let e := if pyFalsy (pyGet kwargs "account") then some "param account miss" else e
  let e := if pyFalsy (pyGet kwargs "strategy") then some "param strategy miss" else e
  let e := if pyFalsy (pyGet kwargs "symbol") then some "param symbol miss" else e
  let e := if pyFalsy (pyGet kwargs "access_key") then some "param access_key miss" else e
  let e := if pyFalsy (pyGet kwargs "secret_key") then some "param secret_key miss" else e
  e

/-- Lines 786-789: default `host` and `wss` when missing or falsy. -/
def initSetDefaults (kwargs : List (String × String)) : List (String × String) :=
  let kwargs :=
    if pyFalsy (pyGet kwargs "host") then
      dictSet kwargs "host" "https://api.binance.com"
    else kwargs
  if pyFalsy (pyGet kwargs "wss") then
    dictSet kwargs "wss" "wss://stream.binance.com:9443"
  else kwargs

/-- Lines 799-820: the unconditional bracket reads of `kwargs`, in source
order, each of which raises `KeyError` when the key is missing; on success
the constructed configuration, including the REST client built at lines
818-820 by `BinanceRestAPI(self._host, self._access_key, self._secret_key)` —
three positionals against the signature `(access_key, secret_key, host)`. -/
def tradeInitReads (kwargs : List (String × String)) : Except String TradeConfig := do
  let account ← pyItem kwargs "account"
  let strategy ← pyItem kwargs "strategy"
  let platform ← pyItem kwargs "platform"
  let symbol ← pyItem kwargs "symbol"
  let host ← pyItem kwargs "host"
  let wss ← pyItem kwargs "wss"
  let access_key ← pyItem kwargs "access_key"
  let secret_key ← pyItem kwargs "secret_key"
  Except.ok
    { account := account, strategy := strategy, platform := platform,
      symbol := symbol, host := host, wss := wss, access_key := access_key,
      secret_key := secret_key, raw_symbol := removeSlashes symbol,
      rest_api := mkBinanceRestAPI host access_key secret_key }

/-- `BinanceTrade.__init__`: validation, defaulting, the error/init callback
dispatches when a check failed (lines 794-797; note
`SingleTask.run(kwargs["error_callback"], e)` and
`SingleTask.run(kwargs["init_callback"], False)` are themselves bracket
reads), then the unconditional attribute reads.  Returns the effects
dispatched before completion or the raise, and either the configuration or
the uncaught `KeyError`. -/
def tradeInit (kwargs : List (String × String)) :
    List Effect × Except String TradeConfig :=
  let e := initValidationError kwargs
  let kwargs := initSetDefaults kwargs
  match e with
  | some err =>
    match pyGet kwargs "error_callback" with
    | none => ([], Except.error "KeyError: error_callback")
    | some _ =>
      match pyGet kwargs "init_callback" with
      | none => ([Effect.errorCallback err], Except.error "KeyError: init_callback")
      | some _ =>
        ([Effect.errorCallback err, Effect.initCallback false], tradeInitReads kwargs)
  | none => ([], tradeInitReads kwargs)

/-! ### Status mapping

Both `connected_callback` (lines 881-896) and `process` (lines 1013-1028)
normalize the exchange status with the same if/elif chain; each chain is
transcribed separately from its own site. -/

/-- The chain at lines 881-896 (`connected_callback`); `none` is the
`else` branch (unknown status → warn, error callback, `continue`). -/
def connectedStatusMap (s : String) : Option OrderStatus :=
  if s = "NEW" then some OrderStatus.submitted
  else if s = "PARTIALLY_FILLED" then some OrderStatus.partFilled
  else if s = "FILLED" then some OrderStatus.filled
  else if s = "CANCELED" then some OrderStatus.canceled
  else if s = "REJECTED" then some OrderStatus.failed
  else if s = "EXPIRED" then some OrderStatus.failed
  else none

/-- The chain at lines 1013-1028 (`process`); `none` is the `else` branch
(unknown status → warn, error callback, `return`). -/
def processStatusMap (s : String) : Option OrderStatus :=
  if s = "NEW" then some OrderStatus.submitted
  else if s = "PARTIALLY_FILLED" then some OrderStatus.partFilled
  else if s = "FILLED" then some OrderStatus.filled
  else if s = "CANCELED" then some OrderStatus.canceled
  else if s = "REJECTED" then some OrderStatus.failed
  else if s = "EXPIRED" then some OrderStatus.failed
  else none

/-! ### `connected_callback` (lines 870-919) -/

/-- One row of the `get_open_orders` REST snapshot, restricted to the keys
`connected_callback` reads.  `orderId` carries the `str(...)` of the raw id;
`origQty`/`executedQty` carry the values of `float(...)` on the decimal
strings. -/
structure OrderInfo where
  status : String
  orderId : String
  clientOrderId : String
  side : String
  type : String
  price : String
  origQty : Rat
  executedQty : Rat
  time : Nat
  updateTime : Nat
  deriving DecidableEq, Repr

/-- The `info` dict built at lines 899-915 for one snapshot row with an
already-normalized status. -/
def orderOfInfo (cfg : TradeConfig) (info : OrderInfo) (status : OrderStatus) :
    Order :=
  { platform := cfg.platform, account := cfg.account, strategy := cfg.strategy,
    order_id := info.orderId, client_order_id := info.clientOrderId,
    action := if info.side = "BUY" then OrderAction.buy else OrderAction.sell,
    order_type := if info.type = "LIMIT" then OrderType.limit else OrderType.market,
    symbol := cfg.symbol, price := info.price, quantity := info.origQty,
    remain := info.origQty - info.executedQty, status := status,
    ctime := info.time, utime := info.updateTime }

/-- One iteration of the `for order_info in order_infos` loop (lines
880-917): unknown status dispatches the error callback and skips the row;
otherwise the order is stored under its id and an order-update notification
is dispatched with a copy. -/
def connectedRowFx (cfg : TradeConfig) (info : OrderInfo) : List Effect :=
  match connectedStatusMap info.status with
  | none => [Effect.errorCallback "order status error."]
  | some status =>
    let order := orderOfInfo cfg info status
    [Effect.setOrder info.orderId order, Effect.orderUpdate order]

/-- The whole loop, row by row. -/
def connectedRowsFx (cfg : TradeConfig) : List OrderInfo → List Effect
  | [] => []
  | info :: rest => connectedRowFx cfg info ++ connectedRowsFx cfg rest

/-- `connected_callback`, given the `get_open_orders` response: on a fetch
error, error callback plus `init_callback(False)` and abort (lines 875-879);
otherwise the per-row loop followed by `init_callback(True)` (line 919). -/
def connectedCallbackTrace (cfg : TradeConfig)
    (resp : Except String (List OrderInfo)) : List Effect :=
  match resp with
  | Except.error err =>
    [Effect.errorCallback ("get open orders error: " ++ err),
     Effect.initCallback false]
  | Except.ok infos => connectedRowsFx cfg infos ++ [Effect.initCallback true]

/-- The live order dict after `connected_callback`. -/
def connectedOrders (cfg : TradeConfig) (d : OrderDict)
    (resp : Except String (List OrderInfo)) : OrderDict :=
  applyTrace d (connectedCallbackTrace cfg resp)

/-! ### `process` (lines 1000-1052) -/

/-- An `executionReport` websocket message, restricted to the keys `process`
reads.  `i` carries `str(msg["i"])`; `q`/`z` carry the values of `float(...)`
on the decimal strings; `O` and `T` are the millisecond timestamps. -/
structure Msg where
  e : String
  s : String
  i : String
  c : String
  S : String
  o : String
  p : String
  q : Rat
  z : Rat
  X : String
  O : Nat
  T : Nat
  deriving DecidableEq, Repr

/-- The `info` dict built at lines 1031-1043 for a first-seen order id.  The
`Order` entity is created without `remain`/`status`/`utime`; those class
defaults are placeholders here, overwritten at lines 1046-1048 before any
use. -/
def newOrderFromMsg (cfg : TradeConfig) (msg : Msg) : Order :=
  { platform := cfg.platform, account := cfg.account, strategy := cfg.strategy,
    order_id := msg.i, client_order_id := msg.c,
    action := if msg.S = "BUY" then OrderAction.buy else OrderAction.sell,
    order_type := if msg.o = "LIMIT" then OrderType.limit else OrderType.market,
    symbol := cfg.symbol, price := msg.p, quantity := msg.q,
    remain := 0, status := OrderStatus.submitted, ctime := msg.O, utime := 0 }

/-- Line 1029-1045: the order looked up by id, or the freshly built one. -/
def baseOrder (cfg : TradeConfig) (d : OrderDict) (msg : Msg) : Order :=
  match pyGet d msg.i with
  | some o => o
  | none => newOrderFromMsg cfg msg

/-- Lines 1046-1048: `order.remain = float(msg["q"]) - float(msg["z"])`,
`order.status = status`, `order.utime = msg["T"]`, mutating the object the
dict holds. -/
def updatedOrder (cfg : TradeConfig) (d : OrderDict) (msg : Msg)
    (status : OrderStatus) : Order :=
  { baseOrder cfg d msg with
    remain := msg.q - msg.z, status := status, utime := msg.T }

/-- `process` (lines 1000-1052) as an effect trace.  Non-`executionReport`
messages and symbol mismatches (line 1010) do nothing; an unknown status
dispatches the error callback and returns (lines 1025-1028); otherwise the
stored order is overwritten (field mutation on the dict's object, one
`setOrder` here), the order-update notification is dispatched with a copy,
and — after the notification — a terminal status pops the id (lines
1049-1052). -/
def processTrace (cfg : TradeConfig) (d : OrderDict) (msg : Msg) : List Effect :=
  if msg.e = "executionReport" then
    if msg.s = cfg.raw_symbol then
      match processStatusMap msg.X with
      | none => [Effect.errorCallback "order status error."]
      | some status =>
        let order := updatedOrder cfg d msg status
        if status ∈ terminalStatuses then
          [Effect.setOrder msg.i order, Effect.orderUpdate order,
           Effect.popOrder msg.i]
        else
          [Effect.setOrder msg.i order, Effect.orderUpdate order]
    else []
  else []

/-- The live order dict after one `process` invocation. -/
def processOrders (cfg : TradeConfig) (d : OrderDict) (msg : Msg) : OrderDict :=
  applyTrace d (processTrace cfg d msg)

/-! ### `create_order` (lines 921-939) -/

/-- `BinanceTrade.create_order`.  Line 933 is the bracket read
`kwargs["client_order_id"]`, which raises `KeyError` when the keyword was
not given — before the REST call is issued.  `resp` is the
`BinanceRestAPI.create_order` response: an exchange order id (of which the
code takes `str(result["orderId"])`) or an error.  On a REST error the error
callback is dispatched and `(None, error)` returned; on success
`(order_id, None)`. -/
def BinanceTrade.create_order (cfg : TradeConfig)
    (action price quantity : String) (kwargs : List (String × String))
    (resp : Except String String) :
    List Effect × Except String (Option String × Option String) :=
  match pyItem kwargs "client_order_id" with
  | Except.error err => ([], Except.error err)
  | Except.ok _ =>
    match resp with
    | Except.error err => ([Effect.errorCallback err], Except.ok (none, some err))
    | Except.ok order_id => ([], Except.ok (some order_id, none))

/-! ### `revoke_order` (lines 941-984)

The REST collaborators are supplied as oracles: `fetch` is the
`get_open_orders` response and `cancel` maps an order id to the error of its
`revoke_order` REST call (`none` = success).  Each issued cancel REST call
is recorded as a `restCancel` effect. -/

/-- Python's `revoke_order(*order_ids)` returns a different shape per arity. -/
inductive RevokeResult where
  | zero (ok : Bool) (err : Option String)
  | one (order_id : String) (err : Option String)
  | many (succeeded : List String) (failed : List (String × String))
  deriving DecidableEq, Repr

/-- The zero-arg loop (lines 958-963): cancel each open order in list order;
on the first error, dispatch the error callback and return `(False, error)`
at once — the remaining orders are not attempted. -/
def revokeZeroLoop (raw_symbol : String) (cancel : String → Option String) :
    List OrderInfo → (Bool × Option String) × List Effect
  | [] => ((true, none), [])
  | info :: rest =>
    match cancel info.orderId with
    | some err =>
      ((false, some err),
       [Effect.restCancel raw_symbol info.orderId, Effect.errorCallback err])
    | none =>
      let r := revokeZeroLoop raw_symbol cancel rest
      (r.1, Effect.restCancel raw_symbol info.orderId :: r.2)

/-- The multi-id loop (lines 976-984): cancel each id; an error appends
`(order_id, e)` to the failure list (after dispatching the error callback),
a success appends the id to the success list; every id is attempted. -/
def revokeManyLoop (raw_symbol : String) (cancel : String → Option String) :
    List String → (List String × List (String × String)) × List Effect
  | [] => (([], []), [])
  | order_id :: rest =>
    let r := revokeManyLoop raw_symbol cancel rest
    match cancel order_id with
    | some err =>
      ((r.1.1, (order_id, err) :: r.1.2),
       Effect.restCancel raw_symbol order_id :: Effect.errorCallback err :: r.2)
    | none =>
      ((order_id :: r.1.1, r.1.2),
       Effect.restCancel raw_symbol order_id :: r.2)

/-- `BinanceTrade.revoke_order` (lines 941-984), dispatching on the arity of
`*order_ids`.  Zero ids: fetch the open orders fresh (error → error callback
and `(False, error)`), then the zero-arg loop.  One id: a single cancel,
returning `(order_id, error-or-None)`.  More: the multi-id loop, returning
the `(succeeded, failed)` partition. -/
def BinanceTrade.revoke_order (cfg : TradeConfig)
    (fetch : Except String (List OrderInfo)) (cancel : String → Option String)
    (order_ids : List String) : RevokeResult × List Effect :=
  match order_ids with
  | [] =>
    match fetch with
    | Except.error err => (RevokeResult.zero false (some err), [Effect.errorCallback err])
    | Except.ok infos =>
      let r := revokeZeroLoop cfg.raw_symbol cancel infos
      (RevokeResult.zero r.1.1 r.1.2, r.2)
  | [order_id] =>
    match cancel order_id with
    | some err =>
      (RevokeResult.one order_id (some err),
       [Effect.restCancel cfg.raw_symbol order_id, Effect.errorCallback err])
    | none =>
      (RevokeResult.one order_id none, [Effect.restCancel cfg.raw_symbol order_id])
  | _ =>
    let r := revokeManyLoop cfg.raw_symbol cancel order_ids
    (RevokeResult.many r.1.1 r.1.2, r.2)

/-- The order ids of the cancel REST calls recorded in a trace, in order. -/
def cancelCalls : List Effect → List String
  | [] => []
  | Effect.restCancel _ order_id :: rest => order_id :: cancelCalls rest
  | _ :: rest => cancelCalls rest

/-- The order-update notifications recorded in a trace, in order. -/
def orderUpdates : List Effect → List Order
  | [] => []
  | Effect.orderUpdate o :: rest => o :: orderUpdates rest
  | _ :: rest => orderUpdates rest

/-! ### Statement-side helpers

Used only to state properties; not transcriptions of source code. -/

/-- The snapshot rows `connected_callback` does not skip (recognized status). -/
def nonSkippedRows : List OrderInfo → List OrderInfo
  | [] => []
  | info :: rest =>
    if (connectedStatusMap info.status).isSome then info :: nonSkippedRows rest
    else nonSkippedRows rest

/-- The order that a non-skipped snapshot row produces (the `getD` default is
never reached on a non-skipped row). -/
def mkRowOrder (cfg : TradeConfig) (info : OrderInfo) : Order :=
  orderOfInfo cfg info ((connectedStatusMap info.status).getD OrderStatus.submitted)

/-- The cancel order-ids the zero-argument `revoke_order` is expected to
attempt: the whole successful prefix plus, when one exists, the first
failing id. -/
def attemptedUntilFailure (cancel : String → Option String) :
    List OrderInfo → List String
  | [] => []
  | info :: rest =>
    match cancel info.orderId with
    | some _ => [info.orderId]
    | none => info.orderId :: attemptedUntilFailure cancel rest

/-! ### Concrete fixtures for the closed instances below -/

/-- Constructor keyword set with every parameter present (no `host`/`wss`,
so the defaults apply). -/
def kwargsEx : List (String × String) :=
  [("account", "a1"), ("strategy", "s1"), ("symbol", "BTC/USDT"),
   ("platform", "binance"), ("access_key", "AK"), ("secret_key", "SK"),
   ("order_update_callback", "ocb"), ("init_callback", "icb"),
   ("error_callback", "ecb")]

/-- The configuration `tradeInit kwargsEx` produces.  Note the `rest_api`
field: the value of `BinanceRestAPI(self._host, self._access_key,
self._secret_key)` with the source's positional argument order. -/
def cfgEx : TradeConfig :=
  { account := "a1", strategy := "s1", platform := "binance",
    symbol := "BTC/USDT", host := "https://api.binance.com",
    wss := "wss://stream.binance.com:9443", access_key := "AK",
    secret_key := "SK", raw_symbol := "BTCUSDT",
    rest_api := mkBinanceRestAPI "https://api.binance.com" "AK" "SK" }

/-- An execution report for a symbol other than `cfgEx`'s. -/
def msgOther : Msg :=
  { e := "executionReport", s := "ETHUSDT", i := "7", c := "c7", S := "BUY",
    o := "LIMIT", p := "10", q := 1, z := 0, X := "NEW", O := 1, T := 2 }

/-- An execution report carrying a status outside the recognized vocabulary. -/
def msgBadStatus : Msg :=
  { e := "executionReport", s := "BTCUSDT", i := "9", c := "c9", S := "SELL",
    o := "LIMIT", p := "10", q := 2, z := 1, X := "PENDING_CANCEL", O := 3,
    T := 4 }

/-- A snapshot row carrying a status outside the recognized vocabulary. -/
def rowBadStatus : OrderInfo :=
  { status := "PENDING_CANCEL", orderId := "9", clientOrderId := "c9",
    side := "BUY", type := "LIMIT", price := "10", origQty := 2,
    executedQty := 1, time := 3, updateTime := 4 }

/-- The spec's snapshot scenario row:
`{id: "1", status: "NEW", origQty: "1.0", executedQty: "0.0"}`. -/
def rowNewEx : OrderInfo :=
  { status := "NEW", orderId := "1", clientOrderId := "c1", side := "BUY",
    type := "LIMIT", price := "100", origQty := 1, executedQty := 0,
    time := 5, updateTime := 6 }

/-- A snapshot row whose status already maps to the terminal FILLED. -/
def rowFilledEx : OrderInfo :=
  { status := "FILLED", orderId := "2", clientOrderId := "c2", side := "BUY",
    type := "LIMIT", price := "100", origQty := 1, executedQty := 1,
    time := 5, updateTime := 6 }

/-- A NEW execution report for order id "1" on the configured symbol. -/
def msgNewEx : Msg :=
  { e := "executionReport", s := "BTCUSDT", i := "1", c := "c1", S := "BUY",
    o := "LIMIT", p := "100", q := 1, z := 0, X := "NEW", O := 7, T := 8 }

/-- A PARTIALLY_FILLED execution report for the same order id "1". -/
def msgPartEx : Msg :=
  { e := "executionReport", s := "BTCUSDT", i := "1", c := "c1", S := "BUY",
    o := "LIMIT", p := "100", q := 4, z := 1, X := "PARTIALLY_FILLED",
    O := 7, T := 9 }

/-- A FILLED execution report for order id "1" on the configured symbol. -/
def msgFilledEx : Msg :=
  { e := "executionReport", s := "BTCUSDT", i := "1", c := "c1", S := "BUY",
    o := "LIMIT", p := "100", q := 1, z := 1, X := "FILLED", O := 7, T := 10 }

/-- `kwargsEx` with one keyword removed. -/
def kwargsWithout (k : String) : List (String × String) :=
  kwargsEx.filter (fun kv => kv.1 != k)

/-- Two open orders (ids "1" and "2") for the cancel-all scenario. -/
def rowOpen1 : OrderInfo :=
  { status := "NEW", orderId := "1", clientOrderId := "c1", side := "BUY",
    type := "LIMIT", price := "100", origQty := 1, executedQty := 0,
    time := 5, updateTime := 6 }

def rowOpen2 : OrderInfo :=
  { status := "NEW", orderId := "2", clientOrderId := "c2", side := "SELL",
    type := "LIMIT", price := "101", origQty := 2, executedQty := 0,
    time := 7, updateTime := 8 }

/-- A cancel oracle that fails on order id "1" and succeeds otherwise. -/
def cancelFail1 : String → Option String :=
  fun order_id => if order_id = "1" then some "cancel failed" else none

/-- A cancel oracle that fails on order id "2" and succeeds otherwise. -/
def cancelFail2 : String → Option String :=
  fun order_id => if order_id = "2" then some "boom" else none

/-! ### Dictionary lemmas -/

theorem pyGet_dictSet_self {α : Type} (d : List (String × α)) (k : String) (v : α) :
    pyGet (dictSet d k v) k = some v := by
  induction d with
  | nil => simp [dictSet, pyGet]
  | cons kv rest ih =>
    by_cases h : kv.1 = k
    · simp [dictSet, h, pyGet]
    · simp [dictSet, h, pyGet, ih]

theorem pyGet_dictSet_ne {α : Type} (d : List (String × α)) (k k' : String)
    (v : α) (h : k' ≠ k) : pyGet (dictSet d k v) k' = pyGet d k' := by
  have hkk : ¬(k = k') := fun hk => h hk.symm
  induction d with
  | nil => simp [dictSet, pyGet, hkk]
  | cons kv rest ih =>
    obtain ⟨a, b⟩ := kv
    by_cases hk : a = k
    · subst hk
      simp [dictSet, pyGet, hkk]
    · by_cases hk' : a = k'
      · simp [dictSet, hk, pyGet, hk', h]
      · simp [dictSet, hk, pyGet, hk', ih]

theorem pyGet_eq_none_iff {α : Type} (d : List (String × α)) (k : String) :
    pyGet d k = none ↔ k ∉ d.map Prod.fst := by
  induction d with
  | nil => simp [pyGet]
  | cons kv rest ih =>
    obtain ⟨a, b⟩ := kv
    by_cases h : a = k
    · simp [pyGet, h]
    · have h' : ¬(k = a) := fun hk => h hk.symm
      simp [pyGet, h, h', ih]

theorem pyGet_append {α : Type} (d₁ d₂ : List (String × α)) (k : String) :
    pyGet (d₁ ++ d₂) k =
      match pyGet d₁ k with
      | some v => some v
      | none => pyGet d₂ k := by
  induction d₁ with
  | nil => simp [pyGet]
  | cons kv rest ih =>
    by_cases h : kv.1 = k
    · simp [pyGet, h]
    · simp [pyGet, h, ih]

theorem dictSet_of_absent {α : Type} (d : List (String × α)) (k : String)
    (v : α) (h : pyGet d k = none) : dictSet d k v = d ++ [(k, v)] := by
  induction d with
  | nil => simp [dictSet]
  | cons kv rest ih =>
    by_cases hk : kv.1 = k
    · simp [pyGet, hk] at h
    · simp [pyGet, hk] at h
      simp [dictSet, hk, ih h]

theorem mem_keys_dictSet {α : Type} (d : List (String × α)) (k k' : String)
    (v : α) (h : k' ∈ (dictSet d k v).map Prod.fst) :
    k' = k ∨ k' ∈ d.map Prod.fst := by
  induction d with
  | nil => simpa [dictSet] using h
  | cons kv rest ih =>
    by_cases hk : kv.1 = k
    · simp [dictSet, hk] at h
      rcases h with h | h
      · exact Or.inl h
      · exact Or.inr (by simp [h])
    · simp [dictSet, hk] at h
      rcases h with h | h
      · exact Or.inr (by simp [h])
      · rcases ih (by simpa using h) with h' | h'
        · exact Or.inl h'
        · exact Or.inr (by simp [h'])

theorem nodupKeys_dictSet {α : Type} (d : List (String × α)) (k : String)
    (v : α) (h : (d.map Prod.fst).Nodup) :
    ((dictSet d k v).map Prod.fst).Nodup := by
  induction d with
  | nil => simp [dictSet]
  | cons kv rest ih =>
    obtain ⟨a, b⟩ := kv
    simp only [List.map_cons, List.nodup_cons] at h
    by_cases hk : a = k
    · subst hk
      simpa [dictSet, List.nodup_cons] using h
    · have hset := ih h.2
      simp only [dictSet, if_neg hk, List.map_cons, List.nodup_cons]
      refine ⟨fun hmem => ?_, hset⟩
      rcases mem_keys_dictSet rest k a v hmem with h' | h'
      · exact hk h'
      · exact h.1 h'

theorem mem_keys_dictPop {α : Type} (d : List (String × α)) (k k' : String)
    (h : k' ∈ (dictPop d k).map Prod.fst) : k' ∈ d.map Prod.fst := by
  induction d with
  | nil => simp [dictPop] at h
  | cons kv rest ih =>
    by_cases hk : kv.1 = k
    · simp [dictPop, hk] at h
      simp [h]
    · simp [dictPop, hk] at h
      rcases h with h | h
      · simp [h]
      · simp [ih (by simpa using h)]

theorem nodupKeys_dictPop {α : Type} (d : List (String × α)) (k : String)
    (h : (d.map Prod.fst).Nodup) : ((dictPop d k).map Prod.fst).Nodup := by
  induction d with
  | nil => simp [dictPop]
  | cons kv rest ih =>
    simp only [List.map_cons, List.nodup_cons] at h
    by_cases hk : kv.1 = k
    · simpa [dictPop, hk] using h.2
    · simp only [dictPop, if_neg hk, List.map_cons, List.nodup_cons]
      exact ⟨fun hmem => h.1 (mem_keys_dictPop rest k kv.1 hmem), ih h.2⟩

theorem pyGet_dictPop_self {α : Type} (d : List (String × α)) (k : String)
    (h : (d.map Prod.fst).Nodup) : pyGet (dictPop d k) k = none := by
  induction d with
  | nil => simp [dictPop, pyGet]
  | cons kv rest ih =>
    simp only [List.map_cons, List.nodup_cons] at h
    by_cases hk : kv.1 = k
    · rw [dictPop, if_pos hk]
      exact (pyGet_eq_none_iff rest k).2 (hk ▸ h.1)
    · rw [dictPop, if_neg hk, pyGet, if_neg hk]
      exact ih h.2

/-! ### Trace lemmas -/

theorem applyTrace_append (d : OrderDict) (fx₁ fx₂ : List Effect) :
    applyTrace d (fx₁ ++ fx₂) = applyTrace (applyTrace d fx₁) fx₂ := by
  simp [applyTrace, List.foldl_append]

theorem applyTrace_cons (d : OrderDict) (e : Effect) (fx : List Effect) :
    applyTrace d (e :: fx) = applyTrace (applyEffect d e) fx := rfl

theorem nodupKeys_applyEffect (d : OrderDict) (e : Effect)
    (h : (d.map Prod.fst).Nodup) : ((applyEffect d e).map Prod.fst).Nodup := by
  cases e with
  | setOrder k o => exact nodupKeys_dictSet d k o h
  | popOrder k => exact nodupKeys_dictPop d k h
  | orderUpdate o => exact h
  | errorCallback s => exact h
  | initCallback b => exact h
  | restCancel s k => exact h

theorem nodupKeys_applyTrace (fx : List Effect) (d : OrderDict)
    (h : (d.map Prod.fst).Nodup) : ((applyTrace d fx).map Prod.fst).Nodup := by
  induction fx generalizing d with
  | nil => exact h
  | cons e rest ih => exact ih (applyEffect d e) (nodupKeys_applyEffect d e h)

theorem nodupKeys_processOrders (cfg : TradeConfig) (d : OrderDict) (msg : Msg)
    (h : (d.map Prod.fst).Nodup) :
    ((processOrders cfg d msg).map Prod.fst).Nodup :=
  nodupKeys_applyTrace (processTrace cfg d msg) d h

/-! ### `process` step lemmas -/

theorem processTrace_known (cfg : TradeConfig) (d : OrderDict) (msg : Msg)
    (st : OrderStatus) (he : msg.e = "executionReport")
    (hs : msg.s = cfg.raw_symbol) (hst : processStatusMap msg.X = some st) :
    processTrace cfg d msg =
      if st ∈ terminalStatuses then
        [Effect.setOrder msg.i (updatedOrder cfg d msg st),
         Effect.orderUpdate (updatedOrder cfg d msg st),
         Effect.popOrder msg.i]
      else
        [Effect.setOrder msg.i (updatedOrder cfg d msg st),
         Effect.orderUpdate (updatedOrder cfg d msg st)] := by
  simp [processTrace, he, hs, hst]

theorem processOrders_pyGet_self (cfg : TradeConfig) (d : OrderDict) (msg : Msg)
    (st : OrderStatus) (hk : (d.map Prod.fst).Nodup)
    (he : msg.e = "executionReport") (hs : msg.s = cfg.raw_symbol)
    (hst : processStatusMap msg.X = some st) :
    pyGet (processOrders cfg d msg) msg.i =
      if st ∈ terminalStatuses then none
      else some (updatedOrder cfg d msg st) := by
  by_cases hterm : st ∈ terminalStatuses
  · rw [if_pos hterm]
    rw [processOrders, processTrace_known cfg d msg st he hs hst, if_pos hterm]
    simp only [applyTrace, List.foldl_cons, List.foldl_nil, applyEffect]
    exact pyGet_dictPop_self _ msg.i (nodupKeys_dictSet d msg.i _ hk)
  · rw [if_neg hterm]
    rw [processOrders, processTrace_known cfg d msg st he hs hst, if_neg hterm]
    simp only [applyTrace, List.foldl_cons, List.foldl_nil, applyEffect]
    exact pyGet_dictSet_self d msg.i _

theorem connectedRowsFx_append (cfg : TradeConfig) (l₁ l₂ : List OrderInfo) :
    connectedRowsFx cfg (l₁ ++ l₂) =
      connectedRowsFx cfg l₁ ++ connectedRowsFx cfg l₂ := by
  induction l₁ with
  | nil => simp [connectedRowsFx]
  | cons info rest ih => simp [connectedRowsFx, ih]

theorem tradeInit_kwargsEx : tradeInit kwargsEx = ([], Except.ok cfgEx) := rfl

theorem nodupKeys_foldl_process (cfg : TradeConfig) (msgs : List Msg)
    (d : OrderDict) (h : (d.map Prod.fst).Nodup) :
    ((msgs.foldl (processOrders cfg) d).map Prod.fst).Nodup := by
  induction msgs generalizing d with
  | nil => exact h
  | cons m rest ih => exact ih _ (nodupKeys_processOrders cfg d m h)

/-! ### Claims -/

/-- C9: `process` on an execution-report event whose symbol field differs
from the instance's configured symbol returns with the live order mapping
unchanged (no entry added, removed, or mutated) and with no callback of any
kind dispatched. -/
theorem c9_symbol_mismatch_is_noop (cfg : TradeConfig) (d : OrderDict)
    (msg : Msg) (he : msg.e = "executionReport")
    (hs : msg.s ≠ cfg.raw_symbol) :
    processOrders cfg d msg = d ∧ processTrace cfg d msg = [] := by
  have ht : processTrace cfg d msg = [] := by simp [processTrace, he, hs]
  exact ⟨by simp [processOrders, ht, applyTrace], ht⟩

/-- Witness for C9 at a concrete mismatching event. -/
theorem c9_symbol_mismatch_is_noop_witness :
    msgOther.e = "executionReport" ∧ msgOther.s ≠ cfgEx.raw_symbol ∧
    (processOrders cfgEx [] msgOther = [] ∧
      processTrace cfgEx [] msgOther = []) :=
  ⟨rfl, by decide, c9_symbol_mismatch_is_noop cfgEx [] msgOther rfl (by decide)⟩

/-- C5: the snapshot path (`connected_callback`) and the stream path
(`process`) normalize exchange statuses by the same mapping
NEW→SUBMITTED, PARTIALLY_FILLED→PARTIAL_FILLED, FILLED→FILLED,
CANCELED→CANCELED, REJECTED→FAILED, EXPIRED→FAILED; every status outside
this vocabulary is refused by both; an unknown-status stream event only
dispatches the error callback and leaves the order mapping untouched; an
unknown-status snapshot row contributes only the error callback, does not
touch the mapping, and the remaining rows and the final init notification
are processed exactly as without it. -/
theorem c5_status_mapping_total_and_skip :
    (∀ s, connectedStatusMap s = processStatusMap s) ∧
    connectedStatusMap "NEW" = some OrderStatus.submitted ∧
    connectedStatusMap "PARTIALLY_FILLED" = some OrderStatus.partFilled ∧
    connectedStatusMap "FILLED" = some OrderStatus.filled ∧
    connectedStatusMap "CANCELED" = some OrderStatus.canceled ∧
    connectedStatusMap "REJECTED" = some OrderStatus.failed ∧
    connectedStatusMap "EXPIRED" = some OrderStatus.failed ∧
    (∀ s, s ∉ ["NEW", "PARTIALLY_FILLED", "FILLED", "CANCELED", "REJECTED",
        "EXPIRED"] → connectedStatusMap s = none) ∧
    (∀ cfg d msg, msg.e = "executionReport" → msg.s = cfg.raw_symbol →
      processStatusMap msg.X = none →
      processOrders cfg d msg = d ∧
      processTrace cfg d msg = [Effect.errorCallback "order status error."]) ∧
    (∀ cfg d pre bad post, connectedStatusMap bad.status = none →
      connectedRowFx cfg bad = [Effect.errorCallback "order status error."] ∧
      connectedCallbackTrace cfg (Except.ok (pre ++ bad :: post)) =
        connectedRowsFx cfg pre ++
          Effect.errorCallback "order status error." ::
            (connectedRowsFx cfg post ++ [Effect.initCallback true]) ∧
      connectedOrders cfg d (Except.ok (pre ++ bad :: post)) =
        connectedOrders cfg d (Except.ok (pre ++ post))) := by
  refine ⟨fun s => rfl, rfl, rfl, rfl, rfl, rfl, rfl, ?_, ?_, ?_⟩
  · intro s hs
    simp only [List.mem_cons, List.not_mem_nil, or_false, not_or] at hs
    obtain ⟨h1, h2, h3, h4, h5, h6⟩ := hs
    simp [connectedStatusMap, h1, h2, h3, h4, h5, h6]
  · intro cfg d msg he hs hst
    have ht : processTrace cfg d msg =
        [Effect.errorCallback "order status error."] := by
      simp [processTrace, he, hs, hst]
    exact ⟨by simp [processOrders, ht, applyTrace, applyEffect], ht⟩
  · intro cfg d pre bad post hbad
    have hrow : connectedRowFx cfg bad =
        [Effect.errorCallback "order status error."] := by
      simp [connectedRowFx, hbad]
    refine ⟨hrow, ?_, ?_⟩
    · show connectedRowsFx cfg (pre ++ bad :: post) ++ [Effect.initCallback true] = _
      rw [show bad :: post = [bad] ++ post from rfl, connectedRowsFx_append,
        connectedRowsFx_append]
      simp [connectedRowsFx, hrow]
    · show applyTrace d (connectedRowsFx cfg (pre ++ bad :: post) ++
        [Effect.initCallback true]) = applyTrace d
          (connectedRowsFx cfg (pre ++ post) ++ [Effect.initCallback true])
      rw [show bad :: post = [bad] ++ post from rfl, connectedRowsFx_append,
        connectedRowsFx_append, connectedRowsFx_append]
      simp only [connectedRowsFx, hrow, List.append_nil]
      rw [List.append_assoc, List.append_assoc, applyTrace_append,
        applyTrace_append, applyTrace_append, applyTrace_append,
        applyTrace_append d (connectedRowsFx cfg pre) (connectedRowsFx cfg post)]
      rfl

/-- Witness for C5's conditional parts at concrete unknown-status inputs. -/
theorem c5_status_mapping_total_and_skip_witness :
    connectedStatusMap "PENDING_CANCEL" = none ∧
    (processOrders cfgEx [] msgBadStatus = [] ∧
      processTrace cfgEx [] msgBadStatus =
        [Effect.errorCallback "order status error."]) ∧
    connectedOrders cfgEx [] (Except.ok ([] ++ rowBadStatus :: [])) =
      connectedOrders cfgEx [] (Except.ok ([] ++ [])) := by
  have h := c5_status_mapping_total_and_skip
  exact ⟨h.2.2.2.2.2.2.2.1 "PENDING_CANCEL" (by decide),
    h.2.2.2.2.2.2.2.2.1 cfgEx [] msgBadStatus rfl rfl (by decide),
    (h.2.2.2.2.2.2.2.2.2 cfgEx [] [] rowBadStatus [] (by decide)).2.2⟩

/-- C6: over any sequence of recognized, symbol-matching execution reports
for one order id, the final in-memory entry's `remain`, `status` and
`updated_time` are the ones computed from the last event alone
(`remain = q - z` of the last event), whatever the earlier events carried;
when the last event's mapped status is non-terminal the entry is present
with exactly those values. -/
theorem c6_last_write_wins (cfg : TradeConfig) (d : OrderDict) (oid : String)
    (msgs front : List Msg) (last : Msg)
    (hk : (d.map Prod.fst).Nodup)
    (hsp : msgs = front ++ [last])
    (hall : ∀ m ∈ msgs, m.e = "executionReport" ∧ m.s = cfg.raw_symbol ∧
      m.i = oid ∧ (processStatusMap m.X).isSome) :
    (∀ o, pyGet (msgs.foldl (processOrders cfg) d) oid = some o →
        o.remain = last.q - last.z ∧ some o.status = processStatusMap last.X ∧
        o.utime = last.T) ∧
    (∀ st, processStatusMap last.X = some st → st ∉ terminalStatuses →
        pyGet (msgs.foldl (processOrders cfg) d) oid =
          some (updatedOrder cfg (front.foldl (processOrders cfg) d) last st)) := by
  subst hsp
  obtain ⟨he, hs, hi, hsome⟩ := hall last (by simp)
  obtain ⟨st, hst⟩ := Option.isSome_iff_exists.mp hsome
  have hk' : ((front.foldl (processOrders cfg) d).map Prod.fst).Nodup :=
    nodupKeys_foldl_process cfg front d hk
  rw [List.foldl_append]
  simp only [List.foldl_cons, List.foldl_nil]
  have hstep := processOrders_pyGet_self cfg
    (front.foldl (processOrders cfg) d) last st hk' he hs hst
  subst hi
  constructor
  · intro o ho
    by_cases hterm : st ∈ terminalStatuses
    · rw [hstep, if_pos hterm] at ho
      exact absurd ho (by simp)
    · rw [hstep, if_neg hterm] at ho
      have ho' := Option.some.inj ho
      subst ho'
      refine ⟨rfl, ?_, rfl⟩
      rw [hst]
      rfl
  · intro st' hst' hterm
    have hst'' : st' = st := by
      rw [hst] at hst'
      exact (Option.some.inj hst').symm
    subst hst''
    rw [hstep, if_neg hterm]

/-- Witness for C6 at a concrete two-event sequence for one order id. -/
theorem c6_last_write_wins_witness :
    (([] : OrderDict).map Prod.fst).Nodup ∧
    ([msgNewEx, msgPartEx] = [msgNewEx] ++ [msgPartEx]) ∧
    (∀ m ∈ [msgNewEx, msgPartEx], m.e = "executionReport" ∧
      m.s = cfgEx.raw_symbol ∧ m.i = "1" ∧ (processStatusMap m.X).isSome) ∧
    ((∀ o, pyGet ([msgNewEx, msgPartEx].foldl (processOrders cfgEx) []) "1" =
          some o →
        o.remain = msgPartEx.q - msgPartEx.z ∧
        some o.status = processStatusMap msgPartEx.X ∧
        o.utime = msgPartEx.T) ∧
      (∀ st, processStatusMap msgPartEx.X = some st →
        st ∉ terminalStatuses →
        pyGet ([msgNewEx, msgPartEx].foldl (processOrders cfgEx) []) "1" =
          some (updatedOrder cfgEx
            ([msgNewEx].foldl (processOrders cfgEx) []) msgPartEx st))) :=
  ⟨by decide, rfl, by decide,
    c6_last_write_wins cfgEx [] "1" [msgNewEx, msgPartEx] [msgNewEx] msgPartEx
      (by decide) rfl (by decide)⟩

/-- C7 counterexample to the claim's invariant reformulation: a snapshot row
with exchange status FILLED is inserted into the live mapping by
`connected_callback` and a subsequent `process` invocation (here on a NEW
event for a different order id) completes with that terminal-status order
still present in the mapping. -/
theorem c7_counterexample_terminal_order_survives :
    (pyGet (processOrders cfgEx
        (connectedOrders cfgEx [] (Except.ok [rowFilledEx])) msgNewEx)
        "2").map Order.status = some OrderStatus.filled ∧
    OrderStatus.filled ∈ terminalStatuses := by
  exact ⟨rfl, by decide⟩

/-- C7 (amended): after `process` completes on a recognized symbol-matching
event whose mapped status is terminal, that event's order id is absent from
the live mapping, and in the invocation's effect order the removal comes
only after the order-update notification (which carries the terminal
status).  The claim's further reformulation — that the mapping holds no
terminal-status order after every `process` invocation — does not hold: the
snapshot path may insert terminal orders that `process` never removes. -/
theorem c7_terminal_event_removed_after_notify (cfg : TradeConfig)
    (d : OrderDict) (msg : Msg) (st : OrderStatus)
    (hk : (d.map Prod.fst).Nodup) (he : msg.e = "executionReport")
    (hs : msg.s = cfg.raw_symbol) (hst : processStatusMap msg.X = some st)
    (hterm : st ∈ terminalStatuses) :
    pyGet (processOrders cfg d msg) msg.i = none ∧
    processTrace cfg d msg =
      [Effect.setOrder msg.i (updatedOrder cfg d msg st),
       Effect.orderUpdate (updatedOrder cfg d msg st),
       Effect.popOrder msg.i] ∧
    (updatedOrder cfg d msg st).status = st := by
  refine ⟨?_, ?_, rfl⟩
  · rw [processOrders_pyGet_self cfg d msg st hk he hs hst, if_pos hterm]
  · rw [processTrace_known cfg d msg st he hs hst, if_pos hterm]

theorem orderUpdates_append (l₁ l₂ : List Effect) :
    orderUpdates (l₁ ++ l₂) = orderUpdates l₁ ++ orderUpdates l₂ := by
  induction l₁ with
  | nil => simp [orderUpdates]
  | cons e rest ih =>
    cases e with
    | setOrder k o => simp [orderUpdates, ih]
    | popOrder k => simp [orderUpdates, ih]
    | orderUpdate o => simp [orderUpdates, ih]
    | errorCallback s => simp [orderUpdates, ih]
    | initCallback b => simp [orderUpdates, ih]
    | restCancel s k => simp [orderUpdates, ih]

theorem connectedRowsFx_apply_fresh (cfg : TradeConfig) (rows : List OrderInfo)
    (d : OrderDict)
    (habs : ∀ r ∈ nonSkippedRows rows, pyGet d r.orderId = none)
    (hnd : ((nonSkippedRows rows).map OrderInfo.orderId).Nodup) :
    applyTrace d (connectedRowsFx cfg rows) =
      d ++ (nonSkippedRows rows).map (fun r => (r.orderId, mkRowOrder cfg r)) := by
  induction rows generalizing d with
  | nil => simp [connectedRowsFx, applyTrace, nonSkippedRows]
  | cons r rest ih =>
    by_cases hr : (connectedStatusMap r.status).isSome
    · obtain ⟨st, hst⟩ := Option.isSome_iff_exists.mp hr
      have hns : nonSkippedRows (r :: rest) = r :: nonSkippedRows rest := by
        simp [nonSkippedRows, hr]
      rw [hns] at habs hnd
      simp only [List.map_cons, List.nodup_cons] at hnd
      have hrow : connectedRowFx cfg r =
          [Effect.setOrder r.orderId (orderOfInfo cfg r st),
           Effect.orderUpdate (orderOfInfo cfg r st)] := by
        simp [connectedRowFx, hst]
      have hmk : mkRowOrder cfg r = orderOfInfo cfg r st := by
        simp [mkRowOrder, hst]
      have hset : applyTrace d (connectedRowFx cfg r) =
          d ++ [(r.orderId, orderOfInfo cfg r st)] := by
        rw [hrow]
        show dictSet d r.orderId (orderOfInfo cfg r st) = _
        exact dictSet_of_absent d r.orderId _ (habs r (by simp))
      have habs' : ∀ r' ∈ nonSkippedRows rest,
          pyGet (d ++ [(r.orderId, orderOfInfo cfg r st)]) r'.orderId = none := by
        intro r' hr'
        rw [pyGet_append, habs r' (by simp [hr'])]
        have hne : ¬(r.orderId = r'.orderId) := by
          intro hx
          exact hnd.1 (hx ▸ List.mem_map_of_mem OrderInfo.orderId hr')
        simp [pyGet, hne]
      rw [connectedRowsFx, applyTrace_append, hset, ih _ habs' hnd.2, hns]
      simp [hmk]
    · have hnone : connectedStatusMap r.status = none :=
        Option.not_isSome_iff_eq_none.mp hr
      have hns : nonSkippedRows (r :: rest) = nonSkippedRows rest := by
        simp [nonSkippedRows, hr]
      rw [hns] at habs hnd
      have hrow : connectedRowFx cfg r =
          [Effect.errorCallback "order status error."] := by
        simp [connectedRowFx, hnone]
      rw [connectedRowsFx, applyTrace_append, hrow, hns]
      exact ih d habs hnd

theorem pyGet_rows_map (cfg : TradeConfig) (l : List OrderInfo) (r : OrderInfo)
    (hnd : (l.map OrderInfo.orderId).Nodup) (hr : r ∈ l) :
    pyGet (l.map (fun r' => (r'.orderId, mkRowOrder cfg r'))) r.orderId =
      some (mkRowOrder cfg r) := by
  induction l with
  | nil => simp at hr
  | cons a rest ih =>
    simp only [List.map_cons, List.nodup_cons] at hnd
    rcases List.mem_cons.mp hr with h | h
    · subst h
      simp [pyGet]
    · have hne : ¬(a.orderId = r.orderId) := by
        intro hx
        exact hnd.1 (hx ▸ List.mem_map_of_mem OrderInfo.orderId h)
      simp only [List.map_cons]
      rw [pyGet, if_neg hne]
      exact ih hnd.2 h

theorem orderUpdates_connectedRowsFx (cfg : TradeConfig)
    (rows : List OrderInfo) :
    orderUpdates (connectedRowsFx cfg rows) =
      (nonSkippedRows rows).map (mkRowOrder cfg) := by
  induction rows with
  | nil => simp [connectedRowsFx, nonSkippedRows, orderUpdates]
  | cons r rest ih =>
    by_cases hr : (connectedStatusMap r.status).isSome
    · obtain ⟨st, hst⟩ := Option.isSome_iff_exists.mp hr
      have hmk : mkRowOrder cfg r = orderOfInfo cfg r st := by
        simp [mkRowOrder, hst]
      rw [connectedRowsFx, orderUpdates_append, ih]
      simp [connectedRowFx, hst, orderUpdates, nonSkippedRows, hr, hmk]
    · have hnone : connectedStatusMap r.status = none :=
        Option.not_isSome_iff_eq_none.mp hr
      rw [connectedRowsFx, orderUpdates_append, ih]
      simp [connectedRowFx, hnone, orderUpdates, nonSkippedRows, hr]

/-- C8: after a successful snapshot fetch, `connected_callback` starting
from the empty live mapping leaves exactly one entry per non-skipped
snapshot row, keyed by the row's order id, whose `remain` is the row's
original quantity minus its executed quantity; one order-update
notification is dispatched per such row (in row order), and the
initialization-success notification is the last effect, after all rows. -/
theorem c8_snapshot_seeds_mapping (cfg : TradeConfig) (rows : List OrderInfo)
    (hnd : ((nonSkippedRows rows).map OrderInfo.orderId).Nodup) :
    connectedOrders cfg [] (Except.ok rows) =
      (nonSkippedRows rows).map (fun r => (r.orderId, mkRowOrder cfg r)) ∧
    orderUpdates (connectedCallbackTrace cfg (Except.ok rows)) =
      (nonSkippedRows rows).map (mkRowOrder cfg) ∧
    (∀ r ∈ nonSkippedRows rows,
      (pyGet (connectedOrders cfg [] (Except.ok rows)) r.orderId).map
        Order.remain = some (r.origQty - r.executedQty)) ∧
    (connectedCallbackTrace cfg (Except.ok rows)).getLast? =
      some (Effect.initCallback true) := by
  have hdict : connectedOrders cfg [] (Except.ok rows) =
      (nonSkippedRows rows).map (fun r => (r.orderId, mkRowOrder cfg r)) := by
    show applyTrace [] (connectedRowsFx cfg rows ++ [Effect.initCallback true]) = _
    rw [applyTrace_append,
      connectedRowsFx_apply_fresh cfg rows [] (fun r _ => rfl) hnd]
    rfl
  refine ⟨hdict, ?_, ?_, ?_⟩
  · show orderUpdates (connectedRowsFx cfg rows ++ [Effect.initCallback true]) = _
    rw [orderUpdates_append, orderUpdates_connectedRowsFx]
    simp [orderUpdates]
  · intro r hr
    rw [hdict, pyGet_rows_map cfg _ r hnd hr]
    rfl
  · show (connectedRowsFx cfg rows ++ [Effect.initCallback true]).getLast? = _
    simp

/-- Witness for C8 at the spec's one-row snapshot scenario. -/
theorem c8_snapshot_seeds_mapping_witness :
    ((nonSkippedRows [rowNewEx]).map OrderInfo.orderId).Nodup ∧
    (connectedOrders cfgEx [] (Except.ok [rowNewEx]) =
        (nonSkippedRows [rowNewEx]).map
          (fun r => (r.orderId, mkRowOrder cfgEx r)) ∧
      orderUpdates (connectedCallbackTrace cfgEx (Except.ok [rowNewEx])) =
        (nonSkippedRows [rowNewEx]).map (mkRowOrder cfgEx) ∧
      (∀ r ∈ nonSkippedRows [rowNewEx],
        (pyGet (connectedOrders cfgEx [] (Except.ok [rowNewEx])) r.orderId).map
          Order.remain = some (r.origQty - r.executedQty)) ∧
      (connectedCallbackTrace cfgEx (Except.ok [rowNewEx])).getLast? =
        some (Effect.initCallback true)) :=
  ⟨by decide, c8_snapshot_seeds_mapping cfgEx [rowNewEx] (by decide)⟩

/-- C1: the claim fails on the code.  `BinanceTrade.__init__` (lines
818-820) passes `(self._host, self._access_key, self._secret_key)`
positionally to `BinanceRestAPI.__init__(access_key, secret_key, host)`, so
every authenticated call the instance's REST client issues is signed with
an HMAC-SHA256 keyed by the account's ACCESS key — not the secret key — and
the `X-MBX-APIKEY` header carries the configured host string — not the
access key (the URL base, in turn, is the secret key).  Shown concretely
for an account with access key "AK" and secret key "SK". -/
theorem c1_trade_rest_credentials_shifted :
    tradeInit kwargsEx = ([], Except.ok cfgEx) ∧
    cfgEx.rest_api =
      { host := "SK", access_key := "https://api.binance.com",
        secret_key := "AK" } ∧
    (cfgEx.rest_api.get_user_account "1000").signature =
      some (Digest.hmacSha256 "AK" "timestamp=1000") ∧
    (cfgEx.rest_api.get_user_account "1000").apiKeyHeader =
      "https://api.binance.com" ∧
    "AK" ≠ "SK" ∧ "https://api.binance.com" ≠ "AK" :=
  ⟨rfl, rfl, rfl, rfl, by decide, by decide⟩

/-- C2: the claim fails on the code.  Line 933 is the unconditional bracket
read `kwargs["client_order_id"]`, so a `create_order` call that omits the
(per spec optional) idempotency token raises `KeyError` before any REST
call or callback — no `(order_id, error)` pair is produced. -/
theorem c2_create_order_missing_client_order_id_raises (cfg : TradeConfig)
    (action price quantity : String) (kwargs : List (String × String))
    (resp : Except String String)
    (h : pyGet kwargs "client_order_id" = none) :
    BinanceTrade.create_order cfg action price quantity kwargs resp =
      ([], Except.error "KeyError: client_order_id") := by
  simp [BinanceTrade.create_order, pyItem, h]

/-- Witness for C2: a concrete call with no `client_order_id` keyword. -/
theorem c2_create_order_missing_client_order_id_raises_witness :
    pyGet ([] : List (String × String)) "client_order_id" = none ∧
    BinanceTrade.create_order cfgEx "BUY" "11000" "0.1" []
        (Except.ok "10498") =
      ([], Except.error "KeyError: client_order_id") :=
  ⟨rfl, c2_create_order_missing_client_order_id_raises cfgEx "BUY" "11000"
    "0.1" [] (Except.ok "10498") rfl⟩

/-- C3 counterexample: with two open orders and the first cancel failing,
the zero-argument `revoke_order` issues one single cancel REST call — order
"2" never receives its cancel attempt — refuting "exactly one cancel REST
call is issued per open order in that list". -/
theorem c3_counterexample_second_order_not_attempted :
    BinanceTrade.revoke_order cfgEx (Except.ok [rowOpen1, rowOpen2])
        cancelFail1 [] =
      (RevokeResult.zero false (some "cancel failed"),
       [Effect.restCancel "BTCUSDT" "1",
        Effect.errorCallback "cancel failed"]) ∧
    cancelCalls (BinanceTrade.revoke_order cfgEx
        (Except.ok [rowOpen1, rowOpen2]) cancelFail1 []).2 = ["1"] ∧
    [rowOpen1, rowOpen2].length = 2 :=
  ⟨rfl, rfl, rfl⟩

theorem revokeZeroLoop_spec (raw_symbol : String)
    (cancel : String → Option String) (infos : List OrderInfo) :
    cancelCalls (revokeZeroLoop raw_symbol cancel infos).2 =
      attemptedUntilFailure cancel infos ∧
    ((revokeZeroLoop raw_symbol cancel infos).1 = (true, none) ↔
      ∀ info ∈ infos, cancel info.orderId = none) := by
  induction infos with
  | nil => simp [revokeZeroLoop, cancelCalls, attemptedUntilFailure]
  | cons info rest ih =>
    cases hc : cancel info.orderId with
    | some err =>
      simp [revokeZeroLoop, hc, cancelCalls, attemptedUntilFailure,
        List.forall_mem_cons]
    | none =>
      simp [revokeZeroLoop, hc, cancelCalls, attemptedUntilFailure,
        List.forall_mem_cons, ih.1, ih.2]

/-- C3 (amended): the zero-argument `revoke_order`, on a successful
open-order fetch, issues cancel REST calls in list order only up to and
including the first failing cancel — on a failure it dispatches the error
callback and returns `(False, error)` at once, without attempting the
remaining open orders — and it returns `(True, None)` if and only if every
open order's cancel succeeds. -/
theorem c3_revoke_all_stops_at_first_failure (cfg : TradeConfig)
    (infos : List OrderInfo) (cancel : String → Option String) :
    cancelCalls
        (BinanceTrade.revoke_order cfg (Except.ok infos) cancel []).2 =
      attemptedUntilFailure cancel infos ∧
    ((BinanceTrade.revoke_order cfg (Except.ok infos) cancel []).1 =
        RevokeResult.zero true none ↔
      ∀ info ∈ infos, cancel info.orderId = none) := by
  have hloop := revokeZeroLoop_spec cfg.raw_symbol cancel infos
  refine ⟨hloop.1, Iff.trans ?_ hloop.2⟩
  show RevokeResult.zero (revokeZeroLoop cfg.raw_symbol cancel infos).1.1
      (revokeZeroLoop cfg.raw_symbol cancel infos).1.2 =
    RevokeResult.zero true none ↔ _
  simp [Prod.ext_iff]

/-- Witness for C3's amended statement at the two-order scenario. -/
theorem c3_revoke_all_stops_at_first_failure_witness :
    cancelCalls (BinanceTrade.revoke_order cfgEx
        (Except.ok [rowOpen1, rowOpen2]) cancelFail1 []).2 =
      attemptedUntilFailure cancelFail1 [rowOpen1, rowOpen2] ∧
    ((BinanceTrade.revoke_order cfgEx (Except.ok [rowOpen1, rowOpen2])
        cancelFail1 []).1 = RevokeResult.zero true none ↔
      ∀ info ∈ [rowOpen1, rowOpen2], cancelFail1 info.orderId = none) :=
  c3_revoke_all_stops_at_first_failure cfgEx [rowOpen1, rowOpen2] cancelFail1

theorem revokeManyLoop_spec (raw_symbol : String)
    (cancel : String → Option String) (ids : List String) :
    (revokeManyLoop raw_symbol cancel ids).1 =
      (ids.filter (fun i => (cancel i).isNone),
       ids.filterMap (fun i => (cancel i).map (fun err => (i, err)))) ∧
    cancelCalls (revokeManyLoop raw_symbol cancel ids).2 = ids := by
  induction ids with
  | nil => simp [revokeManyLoop, cancelCalls]
  | cons i rest ih =>
    cases hc : cancel i with
    | some err =>
      simp [revokeManyLoop, hc, cancelCalls, ih.1, ih.2]
    | none =>
      simp [revokeManyLoop, hc, cancelCalls, ih.1, ih.2]

/-- C4: `revoke_order` with two or more order ids cancels each id
independently — every id receives its cancel REST call, in argument order,
a failure on one id never preventing the attempts on the others — and
returns the partition (ids whose cancel succeeded, (id, error) pairs for
those that failed), both in argument order. -/
theorem c4_revoke_many_partitions (cfg : TradeConfig)
    (fetch : Except String (List OrderInfo))
    (cancel : String → Option String) (ids : List String)
    (h2 : 2 ≤ ids.length) :
    (BinanceTrade.revoke_order cfg fetch cancel ids).1 =
      RevokeResult.many (ids.filter (fun i => (cancel i).isNone))
        (ids.filterMap (fun i => (cancel i).map (fun err => (i, err)))) ∧
    cancelCalls (BinanceTrade.revoke_order cfg fetch cancel ids).2 = ids := by
  obtain ⟨i1, i2, rest, rfl⟩ : ∃ a b l, ids = a :: b :: l := by
    match ids, h2 with
    | a :: b :: l, _ => exact ⟨a, b, l, rfl⟩
  have hloop := revokeManyLoop_spec cfg.raw_symbol cancel (i1 :: i2 :: rest)
  constructor
  · show RevokeResult.many
        (revokeManyLoop cfg.raw_symbol cancel (i1 :: i2 :: rest)).1.1
        (revokeManyLoop cfg.raw_symbol cancel (i1 :: i2 :: rest)).1.2 = _
    rw [hloop.1]
  · show cancelCalls
        (revokeManyLoop cfg.raw_symbol cancel (i1 :: i2 :: rest)).2 = _
    exact hloop.2

/-- Witness for C4: ids "1","2" where "1" succeeds and "2" fails — the
result is the claim's `([id1], [(id2, error)])` partition. -/
theorem c4_revoke_many_partitions_witness :
    2 ≤ (["1", "2"] : List String).length ∧
    ((BinanceTrade.revoke_order cfgEx (Except.ok []) cancelFail2
        ["1", "2"]).1 =
      RevokeResult.many
        ((["1", "2"] : List String).filter (fun i => (cancelFail2 i).isNone))
        ((["1", "2"] : List String).filterMap
          (fun i => (cancelFail2 i).map (fun err => (i, err)))) ∧
      cancelCalls (BinanceTrade.revoke_order cfgEx (Except.ok [])
        cancelFail2 ["1", "2"]).2 = ["1", "2"]) ∧
    (BinanceTrade.revoke_order cfgEx (Except.ok []) cancelFail2
        ["1", "2"]).1 = RevokeResult.many ["1"] [("2", "boom")] :=
  ⟨by decide,
    c4_revoke_many_partitions cfgEx (Except.ok []) cancelFail2 ["1", "2"]
      (by decide), rfl⟩

/-- C10: the constructor's missing-parameter validation does not halt
construction.  For each of `account`, `strategy`, `symbol`, `access_key`,
`secret_key`: constructing with that keyword missing dispatches the error
callback and `init_callback(False)` and then still raises `KeyError` on the
unconditional bracket read of that keyword.  `platform` is read
unconditionally but never validated: constructing with only `platform`
missing raises `KeyError: platform` with no callback dispatched at all. -/
theorem c10_init_validation_does_not_halt :
    tradeInit (kwargsWithout "account") =
      ([Effect.errorCallback "param account miss", Effect.initCallback false],
       Except.error "KeyError: account") ∧
    tradeInit (kwargsWithout "strategy") =
      ([Effect.errorCallback "param strategy miss", Effect.initCallback false],
       Except.error "KeyError: strategy") ∧
    tradeInit (kwargsWithout "symbol") =
      ([Effect.errorCallback "param symbol miss", Effect.initCallback false],
       Except.error "KeyError: symbol") ∧
    tradeInit (kwargsWithout "access_key") =
      ([Effect.errorCallback "param access_key miss",
        Effect.initCallback false],
       Except.error "KeyError: access_key") ∧
    tradeInit (kwargsWithout "secret_key") =
      ([Effect.errorCallback "param secret_key miss",
        Effect.initCallback false],
       Except.error "KeyError: secret_key") ∧
    tradeInit (kwargsWithout "platform") =
      ([], Except.error "KeyError: platform") :=
  ⟨rfl, rfl, rfl, rfl, rfl, rfl⟩

/-- Witness for C7's amended statement at a concrete FILLED event. -/
theorem c7_terminal_event_removed_after_notify_witness :
    (([] : OrderDict).map Prod.fst).Nodup ∧
    processStatusMap msgFilledEx.X = some OrderStatus.filled ∧
    OrderStatus.filled ∈ terminalStatuses ∧
    (pyGet (processOrders cfgEx [] msgFilledEx) msgFilledEx.i = none ∧
      processTrace cfgEx [] msgFilledEx =
        [Effect.setOrder msgFilledEx.i
           (updatedOrder cfgEx [] msgFilledEx OrderStatus.filled),
         Effect.orderUpdate
           (updatedOrder cfgEx [] msgFilledEx OrderStatus.filled),
         Effect.popOrder msgFilledEx.i] ∧
      (updatedOrder cfgEx [] msgFilledEx OrderStatus.filled).status =
        OrderStatus.filled) :=
  ⟨by decide, rfl, by decide,
    c7_terminal_event_removed_after_notify cfgEx [] msgFilledEx
      OrderStatus.filled (by decide) rfl rfl rfl (by decide)⟩

end AioquantBinance
